import Mathlib

/-!
Verification of the orchestration control loop of the Medster-Bayesian agent
(`src/medster/agent.py`), as a shallow embedding in Lean 4.

The embedding models `Agent.__init__`, `Agent.ask_if_done`, `Agent.is_goal_achieved`
and `Agent.run` directly from the source.  External collaborators (the reasoning
provider, the tool catalog, the context manager, the argument optimizer's provider
call and the answer synthesizer) are modelled as an explicit environment of oracles,
one response stream per call site, exactly as the spec's section 6 describes them.
Python floats that the core only stores and compares (confidence scores) are
modelled as rationals; the core performs no floating-point arithmetic on them.
-/

namespace Medster

/-- `schemas.Task`: one unit of work (pydantic model `Task`). -/
structure PyTask where
  id : Int
  description : String
  done : Bool
deriving Repr, DecidableEq

/-- `schemas.ValidationResult`: Bayesian validation outcome. -/
structure ValidationResult where
  done : Bool
  confidence : ℚ
  data_completeness : ℚ
  uncertainty_factors : List String
  refinement_suggestion : Option String
deriving Repr, DecidableEq

/-- `schemas.BayesianMetaValidation`: Bayesian goal (meta-validation) outcome. -/
structure BayesianMetaValidation where
  achieved : Bool
  confidence : ℚ
  remaining_uncertainty : ℚ
  missing_information : List String
deriving Repr, DecidableEq

/-- The configuration state an `Agent` instance carries, exactly the fields that
`Agent.__init__` (agent.py lines 38-65) assigns and that the control loop reads:
`max_steps` (global cap, default 20), `max_steps_per_task` (default 5),
`persist_outputs` (default false), `enable_simple_refinement` (default true),
`max_refinement_attempts` (default 1), and `bayesian_mode`
(computed from `ACTIVE_PROMPTS.get("mode") == "bayesian"`).
The logger and output directory are observability collaborators and carry no
control-relevant state. -/
structure Agent where
  max_steps : Nat
  max_steps_per_task : Nat
  persist_outputs : Bool
  enable_simple_refinement : Bool
  max_refinement_attempts : Nat
  bayesian_mode : Bool
deriving Repr, DecidableEq

/-- The Python exceptions that the modelled call sites can raise. -/
inductive PyExn where
  | attributeError
  | providerError
deriving Repr, DecidableEq

/-- Python attribute lookup `self.enable_iterative_refinement`, as read by
`Agent.ask_if_done` (agent.py line 148).  `Agent.__init__` (lines 38-65) assigns
`logger`, `max_steps`, `max_steps_per_task`, `persist_outputs`, `output_dir`,
`enable_simple_refinement`, `max_refinement_attempts` and `bayesian_mode`, and no
other code in the repository ever assigns `enable_iterative_refinement`, so this
lookup raises `AttributeError` on every `Agent` instance. -/
def Agent.enable_iterative_refinement_attr (_ : Agent) : Except PyExn Bool :=
  Except.error PyExn.attributeError

/-- Return type of `ask_if_done`: Python returns either a plain `bool` or a
`ValidationResult` object. -/
inductive AskResult where
  | bool (b : Bool)
  | details (r : ValidationResult)
deriving Repr, DecidableEq

/-- The `ValidationResult` built by the exception handler of `ask_if_done`
(agent.py lines 181-188). -/
def errorValidationResult : ValidationResult :=
  { done := false
    confidence := 0
    data_completeness := 0
    uncertainty_factors := ["Validation failed due to error"]
    refinement_suggestion := none }

/-- `Agent.ask_if_done` (agent.py lines 120-189).  The provider responses are the
oracles `pv` (the `ValidationResult`-typed `call_llm`, line 149) and `pd` (the
`IsDone`-typed `call_llm`, line 170); `none` models a raised provider exception.
The unused parameter `attempt` of the source is omitted (it is read nowhere in
the body).  The `try` block is an `Except` computation; the condition
`self.bayesian_mode and (self.enable_iterative_refinement or return_validation_details)`
evaluates left to right with short-circuiting, so in Bayesian mode the attribute
lookup raises before `return_validation_details` is consulted, and the generic
`except Exception` handler (lines 177-189) takes over. -/
def ask_if_done (A : Agent) (pv : Option ValidationResult) (pd : Option Bool)
    (return_validation_details : Bool) : AskResult :=
  let tryBody : Except PyExn AskResult :=
    if A.bayesian_mode then
      match A.enable_iterative_refinement_attr with
      | Except.error e => Except.error e
      | Except.ok enable_iter =>
        if enable_iter || return_validation_details then
          match pv with
          | some resp =>
            if return_validation_details then Except.ok (AskResult.details resp)
            else Except.ok (AskResult.bool resp.done)
          | none => Except.error PyExn.providerError
        else
          match pd with
          | some resp => Except.ok (AskResult.bool resp)
          | none => Except.error PyExn.providerError
    else
      match pd with
      | some resp => Except.ok (AskResult.bool resp)
      | none => Except.error PyExn.providerError
  match tryBody with
  | Except.ok r => r
  | Except.error _ =>
    if return_validation_details then AskResult.details errorValidationResult
    else AskResult.bool false

/-- Return type of `is_goal_achieved`: Python returns either a plain `bool` or a
dict with keys `achieved`, `confidence`, `remaining_uncertainty`,
`missing_information` (the same shape as `BayesianMetaValidation`). -/
inductive GoalResult where
  | bool (b : Bool)
  | dict (d : BayesianMetaValidation)
deriving Repr, DecidableEq

/-- The dict built by the exception handler of `is_goal_achieved` in Bayesian
mode (agent.py lines 266-272). -/
def errorGoalDict : BayesianMetaValidation :=
  { achieved := false
    confidence := 0
    remaining_uncertainty := 5
    missing_information := ["Meta-validation failed due to error"] }

/-- `Agent.is_goal_achieved` (agent.py lines 193-273).  `pb` is the
`BayesianMetaValidation`-typed provider response (line 239), `pd` the
`IsDone`-typed one (line 255); `none` models a raised provider exception.
Prompt construction (lines 210-231) only shapes provider input and is part of
the oracle. -/
def is_goal_achieved (A : Agent) (pb : Option BayesianMetaValidation)
    (pd : Option Bool) : GoalResult :=
  if A.bayesian_mode then
    match pb with
    | some resp =>
      GoalResult.dict
        { achieved := resp.achieved
          confidence := resp.confidence
          remaining_uncertainty := resp.remaining_uncertainty
          missing_information := resp.missing_information }
    | none => GoalResult.dict errorGoalDict
  else
    match pd with
    | some resp => GoalResult.bool resp
    | none => GoalResult.bool false

/-- The wrapper the Bayesian branch of `Agent.run` (line 476) effectively uses:
`ask_if_done(..., return_validation_details=True)` followed by reading the
result as a `ValidationResult`.  The `bool` fallback is dead code whenever
`A.bayesian_mode = true` (lemma `askIfDoneDetails_bayesian` below); in Python a
`bool` there would crash the attribute reads at lines 483-485. -/
def askIfDoneDetails (A : Agent) (pv : Option ValidationResult) : ValidationResult :=
  match ask_if_done A pv none true with
  | AskResult.details r => r
  | AskResult.bool b =>
    { done := b, confidence := 0, data_completeness := 0
      uncertainty_factors := [], refinement_suggestion := none }

/-- `last_actions.append(sig)` followed by the trim `last_actions[-4:]` when the
length exceeds 4 (agent.py lines 433-435). -/
def loopUpdate (last_actions : List String) (sig : String) : List String :=
  let la := last_actions ++ [sig]
  if la.length > 4 then la.drop (la.length - 4) else la

/-- The runaway-loop test `len(set(last_actions)) == 1 and len(last_actions) == 4`
(agent.py line 436).  Python's `len(set(xs))` is the number of distinct elements
of `xs`, which is `xs.dedup.length`. -/
def loopFatal (la : List String) : Bool :=
  la.dedup.length == 1 && la.length == 4

/-- The refinement test of agent.py line 507:
`not is_done and self.enable_simple_refinement and per_task_steps <= self.max_refinement_attempts`. -/
def refinementDecision (A : Agent) (is_done : Bool) (per_task_steps : Nat) : Bool :=
  !is_done && A.enable_simple_refinement
    && decide (per_task_steps ≤ A.max_refinement_attempts)

/-- Python substring test `needle in hay`. -/
def strContains (hay needle : String) : Bool :=
  hay.toList.tails.any (fun t => needle.toList.isPrefixOf t)

/-- Python `str.lower()`, character by character. -/
def strToLower (s : String) : String :=
  String.mk (s.data.map Char.toLower)

/-- The keyword gate of agent.py line 461:
`any(kw in task.description.lower() for kw in ["mcp", "analyze_medical_document"])`. -/
def isMcpTask (desc : String) : Bool :=
  strContains (strToLower desc) "mcp" || strContains (strToLower desc) "analyze_medical_document"

/-- agent.py line 462:
`any("analyze_medical_document" in output for output in task_step_outputs)`. -/
def mcpToolCalled (task_step_outputs : List String) : Bool :=
  task_step_outputs.any (fun o => strContains o "analyze_medical_document")

/-- The error record appended on tool-execution failure (agent.py line 451):
`f"Error from {tool_name} with args {optimized_args}: {e}"`. -/
def mkErrorRecord (tool_name optimized_args msg : String) : String :=
  "Error from " ++ tool_name ++ " with args " ++ optimized_args ++ ": " ++ msg

/-- One proposed tool call from an `AIMessage`: `tool_call["name"]` and
`tool_call["args"]` (the argument mapping, kept abstract as its printed form,
which is all the control loop ever uses of it). -/
structure RawCall where
  name : String
  args : String
deriving Repr, DecidableEq

/-- Result of `Agent.ask_for_actions` (agent.py lines 90-116) as observed by
`Agent.run`: either the `AGENT_ERROR:` failure marker (the `except` branch,
line 116, detected at line 411) or a list of proposed tool calls (possibly
empty). -/
inductive ActionResult where
  | agentError
  | proposals (calls : List RawCall)
deriving Repr, DecidableEq

/-- One record written by `Agent._save_task_output` (agent.py lines 321-350):
task id, description, the round's outputs, and the optional Bayesian metadata
dict of lines 495-499 (confidence, data completeness, uncertainty factors). -/
structure SaveRec where
  task_id : Int
  task_description : String
  outputs : List String
  metadata : Option (ℚ × ℚ × List String)
deriving Repr, DecidableEq

/-- The oracle environment: every external collaborator `Agent.run` calls into,
one deterministic response stream per call site, indexed by that call site's
own invocation counter.  `tools` is the name set of the `TOOLS` catalog;
`optimizeArgs` is the value `optimize_tool_args` returns for a katalogued tool
(for an unknown tool the source returns the initial arguments unchanged);
`execTool` is the outcome of `tool.run` (`Except.error` models a raised
exception); `formatOutput` is `format_output_for_context`; `answerOf` is
`_generate_answer` as a function of the accumulated outputs. -/
structure Env where
  tools : List String
  askActions : Nat → ActionResult
  optimizeArgs : Nat → String
  execTool : Nat → Except String String
  formatOutput : String → String → String → String
  validationProvider : Nat → Option ValidationResult
  isDoneProvider : Nat → Option Bool
  goalBayes : Nat → Option BayesianMetaValidation
  goalDet : Nat → Option Bool
  answerOf : List String → String

/-- The mutable run state of `Agent.run`: `step_count`, `last_actions`,
`task_outputs`, the task list (aliased mutable `done` flags), the per-call-site
oracle counters, and the records handed to `_save_task_output`. -/
structure St where
  step_count : Nat
  last_actions : List String
  task_outputs : List String
  tasks : List PyTask
  asks : Nat
  opts : Nat
  execs : Nat
  vals : Nat
  goals : Nat
  saves : List SaveRec
deriving Repr, DecidableEq

/-- Why the inner per-task loop handed control back to the outer
task-selection loop. -/
inductive ExitCause where
  | agentError
  | emptyProposal
  | mcpGate
  | validated
  | forced
  | budget
deriving Repr, DecidableEq

/-- Control-flow trace of one run.  `step` records the two counters right after
the twin increments of agent.py lines 457-458, together with the length of the
current round's proposal; `capBreak` is the outer-loop break at line 386 (which
falls through to answer synthesis); `capReturn` is the inner-loop bare `return`
at line 397 (which does not); `loopAbort` is the bare `return` at line 438. -/
inductive Event where
  | taskStart (idx : Nat)
  | step (step_count per_task_steps round_len : Nat)
  | toolRun (name : String) (ok : Bool)
  | invalidTool (name : String)
  | validation (done : Bool)
  | refine
  | taskExit (cause : ExitCause) (done : Bool)
  | goalCheck (achieved : Bool)
  | capBreak
  | capReturn
  | loopAbort
deriving Repr, DecidableEq

/-- Result of the `for tool_call in ai_message.tool_calls` loop
(agent.py lines 421-458): either the whole-run abort of line 438, or the
state, per-task counter and round outputs when the loop finishes or `break`s
on the global cap (line 423). -/
inductive CallsResult where
  | loopAbortRun (st : St)
  | finished (st : St) (per_task_steps : Nat) (task_step_outputs : List String)
deriving Repr

/-- Read a task by index (the selected task is always in range; the default is
irrelevant). -/
def getTask (ts : List PyTask) (i : Nat) : PyTask :=
  ts.getD i { id := 0, description := "", done := false }

/-- Set `task.done = True` on the selected task (the Python code mutates the
aliased object inside the list). -/
def setTaskDone : List PyTask → Nat → List PyTask
  | [], _ => []
  | t :: ts, 0 => { t with done := true } :: ts
  | t :: ts, i + 1 => t :: setTaskDone ts i

/-- The `for tool_call in ai_message.tool_calls` loop of agent.py lines 421-458.
Per proposed call, in proposal order: global-cap `break` check (422-423);
`optimize_tool_args` (428; for a tool missing from the catalog the source
returns the initial args without a provider call); the action signature and
loop-guard update (430-438, a fatal hit is a whole-run `return`); then, since
`confirm_action` always returns `True` (353-355), execution when the tool is in
the catalog — success appends the formatted output, failure the error record, to
both output sequences (440-453) — or only a log line when it is not (454-455);
finally the twin counter increments (457-458).  Returns the emitted trace
together with the outcome.
The source computes `optimized_args = optimize_tool_args(...)` (line 428), which
returns the initial arguments unchanged when the tool is missing from the
catalog (lines 279-281), and then looks the tool up again by name (line 440);
the embedding cases once on catalog membership and inlines both outcomes. -/
def execCalls (A : Agent) (E : Env) (round_len : Nat) :
    List RawCall → St → Nat → List String → List Event × CallsResult
  | [], st, pt, tso => ([], CallsResult.finished st pt tso)
  | c :: rest, st, pt, tso =>
    if st.step_count ≥ A.max_steps then
      ([], CallsResult.finished st pt tso)
    else
      if c.name ∈ E.tools then
        let optimized := E.optimizeArgs st.opts
        let st1 := { st with opts := st.opts + 1 }
        let la := loopUpdate st1.last_actions (c.name ++ ":" ++ optimized)
        let st2 := { st1 with last_actions := la }
        if loopFatal la then
          ([], CallsResult.loopAbortRun st2)
        else
          match E.execTool st2.execs with
          | Except.ok res =>
            let output := E.formatOutput c.name optimized res
            let st3 := { st2 with
              execs := st2.execs + 1
              task_outputs := st2.task_outputs ++ [output]
              step_count := st2.step_count + 1 }
            let r := execCalls A E round_len rest st3 (pt + 1) (tso ++ [output])
            (Event.toolRun c.name true :: Event.step st3.step_count (pt + 1) round_len :: r.1,
             r.2)
          | Except.error e =>
            let output := mkErrorRecord c.name optimized e
            let st3 := { st2 with
              execs := st2.execs + 1
              task_outputs := st2.task_outputs ++ [output]
              step_count := st2.step_count + 1 }
            let r := execCalls A E round_len rest st3 (pt + 1) (tso ++ [output])
            (Event.toolRun c.name false :: Event.step st3.step_count (pt + 1) round_len :: r.1,
             r.2)
      else
        let la := loopUpdate st.last_actions (c.name ++ ":" ++ c.args)
        let st2 := { st with last_actions := la }
        if loopFatal la then
          ([], CallsResult.loopAbortRun st2)
        else
          let st3 := { st2 with step_count := st2.step_count + 1 }
          let r := execCalls A E round_len rest st3 (pt + 1) tso
          (Event.invalidTool c.name :: Event.step st3.step_count (pt + 1) round_len :: r.1,
           r.2)

/-- How the inner `while per_task_steps < self.max_steps_per_task` loop ended:
hand control back to the outer loop, return from the whole run (inner global-cap
`return` at line 397 or loop-guard `return` at line 438), or out of fuel. -/
inductive InnerExit where
  | toOuter
  | capReturnRun
  | loopAbortRun
  | ranOut
deriving Repr, DecidableEq

/-- The inner `while per_task_steps < self.max_steps_per_task` loop of agent.py
lines 394-530, for the task at index `idx`.  One iteration: global-cap bare
`return` check (395-397); context budgeting (399-406, observability only);
`ask_for_actions` (408) with `AGENT_ERROR` `break` (411-414) and empty-proposal
completion (416-419); the tool-call loop (421-458); the MCP keyword gate
(460-467); validation (474-503, Bayesian or deterministic); the refinement
`continue` (505-512); else completion, forced if needed, and the best-effort
save (514-530).  Fuel only bounds the recursion depth; every claim is stated
for all fuel values. -/
def innerLoop (A : Agent) (E : Env) (idx : Nat) :
    Nat → St → Nat → List String → List Event × St × InnerExit
  | 0, st, _, _ => ([], st, InnerExit.ranOut)
  | fuel + 1, st, pt, tso =>
    if pt < A.max_steps_per_task then
      if st.step_count ≥ A.max_steps then
        ([Event.capReturn], st, InnerExit.capReturnRun)
      else
        let ask := E.askActions st.asks
        let st1 := { st with asks := st.asks + 1 }
        match ask with
        | ActionResult.agentError =>
          ([Event.taskExit ExitCause.agentError (getTask st1.tasks idx).done], st1,
           InnerExit.toOuter)
        | ActionResult.proposals [] =>
          let st2 := { st1 with tasks := setTaskDone st1.tasks idx }
          ([Event.taskExit ExitCause.emptyProposal true], st2, InnerExit.toOuter)
        | ActionResult.proposals (c :: cs) =>
          let r := execCalls A E (c :: cs).length (c :: cs) st1 pt tso
          match r.2 with
          | CallsResult.loopAbortRun st2 =>
            (r.1 ++ [Event.loopAbort], st2, InnerExit.loopAbortRun)
          | CallsResult.finished st2 pt2 tso2 =>
            let desc := (getTask st2.tasks idx).description
            if isMcpTask desc && !mcpToolCalled tso2 then
              (r.1 ++ [Event.taskExit ExitCause.mcpGate (getTask st2.tasks idx).done], st2,
               InnerExit.toOuter)
            else
              let vres :=
                if A.bayesian_mode then
                  let vr := askIfDoneDetails A (E.validationProvider st2.vals)
                  (vr.done, some (vr.confidence, vr.data_completeness, vr.uncertainty_factors))
                else
                  let b :=
                    match ask_if_done A none (E.isDoneProvider st2.vals) false with
                    | AskResult.bool b => b
                    | AskResult.details r => r.done
                  (b, none)
              let is_done := vres.1
              let st3 := { st2 with vals := st2.vals + 1 }
              if refinementDecision A is_done pt2 then
                let rec' := innerLoop A E idx fuel st3 pt2 tso2
                (r.1 ++ [Event.validation is_done, Event.refine] ++ rec'.1, rec'.2)
              else
                let st4 := { st3 with tasks := setTaskDone st3.tasks idx }
                let cause := if is_done then ExitCause.validated else ExitCause.forced
                let st5 :=
                  if A.persist_outputs then
                    { st4 with saves := st4.saves ++
                      [{ task_id := (getTask st4.tasks idx).id
                         task_description := desc
                         outputs := tso2
                         metadata := vres.2 }] }
                  else st4
                (r.1 ++ [Event.validation is_done, Event.taskExit cause true], st5,
                 InnerExit.toOuter)
    else
      ([Event.taskExit ExitCause.budget (getTask st.tasks idx).done], st, InnerExit.toOuter)

/-- How a run ended: with a synthesized answer (agent.py line 551-553, or the
empty-plan path at 377-380), with Python `None` from the bare `return`s at
line 397 (global cap inside a task) or line 438 (runaway-loop abort), or out
of fuel. -/
inductive Outcome where
  | answer (text : String)
  | noneGlobalCap
  | noneLoopAbort
  | outOfFuel
deriving Repr, DecidableEq

/-- A finished run: its outcome, full control trace, and final state. -/
structure RunResult where
  outcome : Outcome
  trace : List Event
  final : St
deriving Repr

/-- Fall through to answer synthesis (`_generate_answer`, agent.py line 551):
the answer is the oracle applied to the accumulated session outputs. -/
def finishRun (E : Env) (st : St) : RunResult :=
  { outcome := Outcome.answer (E.answerOf st.task_outputs), trace := [], final := st }

/-- The dispatch at agent.py lines 537-547: a dict result (Bayesian) breaks on
its `achieved` entry, a boolean result (deterministic) on itself. -/
def goalAchieved : GoalResult → Bool
  | GoalResult.dict d => d.achieved
  | GoalResult.bool b => b

/-- The outer `while any(not t.done for t in tasks)` loop of agent.py
lines 383-549: first-incomplete task selection (388), the global-cap `break`
(384-386) falling through to synthesis, delegation to the inner loop, and on a
completed task the goal meta-validation (533-549) whose `achieved` breaks to
synthesis. -/
def outerLoop (A : Agent) (E : Env) : Nat → St → RunResult
  | 0, st => { outcome := Outcome.outOfFuel, trace := [], final := st }
  | fuel + 1, st =>
    match st.tasks.findIdx? (fun t => !t.done) with
    | none => finishRun E st
    | some idx =>
      if st.step_count ≥ A.max_steps then
        let r := finishRun E st
        { r with trace := Event.capBreak :: r.trace }
      else
        let r := innerLoop A E idx fuel st 0 []
        match r.2.2 with
        | InnerExit.capReturnRun =>
          { outcome := Outcome.noneGlobalCap, trace := Event.taskStart idx :: r.1,
            final := r.2.1 }
        | InnerExit.loopAbortRun =>
          { outcome := Outcome.noneLoopAbort, trace := Event.taskStart idx :: r.1,
            final := r.2.1 }
        | InnerExit.ranOut =>
          { outcome := Outcome.outOfFuel, trace := Event.taskStart idx :: r.1,
            final := r.2.1 }
        | InnerExit.toOuter =>
          let st' := r.2.1
          if (getTask st'.tasks idx).done then
            let g := is_goal_achieved A (E.goalBayes st'.goals) (E.goalDet st'.goals)
            let st'' := { st' with goals := st'.goals + 1 }
            let achieved := goalAchieved g
            if achieved then
              let fr := finishRun E st''
              { fr with trace := Event.taskStart idx :: r.1 ++ [Event.goalCheck achieved] }
            else
              let rest := outerLoop A E fuel st''
              { rest with trace :=
                  Event.taskStart idx :: r.1 ++ Event.goalCheck achieved :: rest.trace }
          else
            let rest := outerLoop A E fuel st'
            { rest with trace := Event.taskStart idx :: r.1 ++ rest.trace }

/-- `Agent.run` (agent.py lines 358-553), given the planner's task list
(`plan_tasks`, line 375; planning itself is a collaborator).  An empty plan
short-circuits to answer synthesis on no data (377-380). -/
def Agent.run (A : Agent) (E : Env) (tasks : List PyTask) (fuel : Nat) : RunResult :=
  let st0 : St :=
    { step_count := 0, last_actions := [], task_outputs := [], tasks := tasks
      asks := 0, opts := 0, execs := 0, vals := 0, goals := 0, saves := [] }
  if tasks.isEmpty then finishRun E st0
  else outerLoop A E fuel st0

/-- Count of actual tool executions (`_execute_tool` calls) recorded in a trace. -/
def countToolRuns : List Event → Nat
  | [] => 0
  | Event.toolRun _ _ :: es => countToolRuns es + 1
  | _ :: es => countToolRuns es

/-- Count of validation outcomes recorded in a trace. -/
def countValidations : List Event → Nat
  | [] => 0
  | Event.validation _ :: es => countValidations es + 1
  | _ :: es => countValidations es

/-- The state carried by a `CallsResult`. -/
def CallsResult.state : CallsResult → St
  | CallsResult.loopAbortRun st => st
  | CallsResult.finished st _ _ => st

/-- The events the tool-call loop itself can emit (execution, invalid-tool and
counter-increment records). -/
def callLevelEvent : Event → Bool
  | Event.toolRun _ _ => true
  | Event.invalidTool _ => true
  | Event.step _ _ _ => true
  | _ => false

/-- The per-event run invariants, indexed by the agent configuration: counter
records respect the global cap and the per-round per-task bound; under the
default relation `maxRefinementAttempts < maxStepsPerTask` the only
not-done exits to the outer loop are agent failure and the MCP gate; a
refinement restart implies refinement is enabled; and in Bayesian mode every
validation outcome is `done = false` and no task exits as validated-done. -/
def GoodEv (A : Agent) : Event → Prop
  | Event.step sc pt len => sc ≤ A.max_steps ∧ pt ≤ A.max_steps_per_task - 1 + len
  | Event.taskExit c b =>
    (A.max_refinement_attempts < A.max_steps_per_task → b = false →
      c = ExitCause.agentError ∨ c = ExitCause.mcpGate) ∧
    (A.bayesian_mode = true → ¬(c = ExitCause.validated ∧ b = true))
  | Event.refine => A.enable_simple_refinement = true
  | Event.validation b => A.bayesian_mode = true → b = false
  | _ => True

/-- Relates two provider validation responses that agree on the load-bearing
`done` field and may differ in every observability field. -/
def ValidObsRel : Option ValidationResult → Option ValidationResult → Prop
  | none, none => True
  | some a, some b => a.done = b.done
  | _, _ => False

/-- Relates two provider meta-validation responses that agree on the
load-bearing `achieved` field and may differ in every observability field. -/
def GoalObsRel : Option BayesianMetaValidation → Option BayesianMetaValidation → Prop
  | none, none => True
  | some a, some b => a.achieved = b.achieved
  | _, _ => False

/-- Two oracle environments identical except in the confidence, completeness,
uncertainty and advisory fields of the probabilistic validation and goal
outcomes (their boolean `done`/`achieved` fields held fixed). -/
structure ObsEquiv (e1 e2 : Env) : Prop where
  tools_eq : e1.tools = e2.tools
  ask_eq : e1.askActions = e2.askActions
  opt_eq : e1.optimizeArgs = e2.optimizeArgs
  exec_eq : e1.execTool = e2.execTool
  fmt_eq : e1.formatOutput = e2.formatOutput
  isDone_eq : e1.isDoneProvider = e2.isDoneProvider
  goalDet_eq : e1.goalDet = e2.goalDet
  answer_eq : e1.answerOf = e2.answerOf
  validation_rel : ∀ n, ValidObsRel (e1.validationProvider n) (e2.validationProvider n)
  goal_rel : ∀ n, GoalObsRel (e1.goalBayes n) (e2.goalBayes n)

/-- A base oracle environment for concrete runs: one catalogued tool named
`"t"`, no proposals, successful execution, deterministic validation and goal
both negative. -/
def envBase : Env :=
  { tools := ["t"]
    askActions := fun _ => ActionResult.proposals []
    optimizeArgs := fun _ => "x"
    execTool := fun _ => Except.ok "o"
    formatOutput := fun n a r => n ++ "/" ++ a ++ "=" ++ r
    validationProvider := fun _ => none
    isDoneProvider := fun _ => some false
    goalBayes := fun _ => none
    goalDet := fun _ => some false
    answerOf := fun _ => "ANSWER" }

/-- The default configuration of `Agent.__init__` in deterministic mode. -/
def agentDefault : Agent :=
  { max_steps := 20, max_steps_per_task := 5, persist_outputs := false
    enable_simple_refinement := true, max_refinement_attempts := 1, bayesian_mode := false }

/-- The default configuration with `REASONING_MODE=bayesian`. -/
def agentBayes : Agent := { agentDefault with bayesian_mode := true }

/-- A single planned task whose description contains no MCP keyword. -/
def tasksOne : List PyTask := [{ id := 1, description := "a", done := false }]

/-- C4 scenario environment: the first proposal contains four identical tool
calls (same name, same optimized arguments). -/
def envFourIdentical : Env :=
  { envBase with
    askActions := fun n =>
      if n = 0 then
        ActionResult.proposals
          [{ name := "t", args := "x" }, { name := "t", args := "x" },
           { name := "t", args := "x" }, { name := "t", args := "x" }]
      else ActionResult.proposals [] }

/-- Witness state for the frame-effect theorem. -/
def stWitness : St :=
  { step_count := 0, last_actions := [], task_outputs := ["prev"], tasks := tasksOne
    asks := 0, opts := 0, execs := 0, vals := 0, goals := 0, saves := [] }

/-- C1 failing configuration: `Agent(max_steps=1)`, everything else at its
default. -/
def agentCapOne : Agent := { agentDefault with max_steps := 1 }

/-- C1 failing environment: the first proposal holds one tool call; validation
answers not-done, so the refinement retry re-enters the round loop. -/
def envCapOne : Env :=
  { envBase with
    askActions := fun n =>
      if n = 0 then ActionResult.proposals [{ name := "t", args := "x" }]
      else ActionResult.proposals [] }

/-- C2 counterexample environment: the first proposal holds seven tool calls
with distinct optimizer outputs; validation then affirms completion. -/
def envSevenCalls : Env :=
  { envBase with
    askActions := fun n =>
      if n = 0 then
        ActionResult.proposals ((List.range 7).map fun i => { name := "t", args := Nat.repr i })
      else ActionResult.proposals []
    optimizeArgs := fun n => Nat.repr n
    isDoneProvider := fun _ => some true
    goalDet := fun _ => some true }

/-- C5 counterexample configuration: `max_steps_per_task = 1` with the default
`max_refinement_attempts = 1`. -/
def agentTightBudget : Agent := { agentDefault with max_steps_per_task := 1 }

/-- C5 counterexample environment: one single-call proposal, validation
not-done (so the refinement retry fires), then an empty proposal. -/
def envTightBudget : Env :=
  { envBase with
    askActions := fun n =>
      if n = 0 then ActionResult.proposals [{ name := "t", args := "x" }]
      else ActionResult.proposals [] }

/-- C5 amended-claim witness environment: the action proposal fails outright. -/
def envAskFails : Env := { envBase with askActions := fun _ => ActionResult.agentError }

/-- C6 counterexample environment: the first (and only) round's proposal holds
two tool calls with distinct optimizer outputs; validation answers not-done. -/
def envTwoCallRound : Env :=
  { envBase with
    askActions := fun n =>
      if n = 0 then
        ActionResult.proposals [{ name := "t", args := "p" }, { name := "t", args := "q" }]
      else ActionResult.proposals []
    optimizeArgs := fun n => Nat.repr n }

/-- C6 refinement-positive environment: a single-call first round whose
validation answers not-done, then an empty second round. -/
def envOneCallRound : Env :=
  { envBase with
    askActions := fun n =>
      if n = 0 then ActionResult.proposals [{ name := "t", args := "x" }]
      else ActionResult.proposals [] }

/-- The default configuration with refinement disabled
(`--no-refinement`). -/
def agentNoRefinement : Agent := { agentDefault with enable_simple_refinement := false }

/-- First of two C7 witness environments: full-confidence affirmative
outcomes. -/
def envObsA : Env :=
  { envBase with
    askActions := fun n =>
      if n = 0 then ActionResult.proposals [{ name := "t", args := "x" }]
      else ActionResult.proposals []
    validationProvider := fun _ =>
      some { done := false, confidence := 9/10, data_completeness := 1
             uncertainty_factors := [], refinement_suggestion := none }
    goalBayes := fun _ =>
      some { achieved := true, confidence := 1, remaining_uncertainty := 0
             missing_information := [] } }

/-- Second C7 witness environment: same `done`/`achieved` booleans, different
confidence, completeness, uncertainty and advisory fields. -/
def envObsB : Env :=
  { envObsA with
    validationProvider := fun _ =>
      some { done := false, confidence := 1/10, data_completeness := 0
             uncertainty_factors := ["missing labs"], refinement_suggestion := some "retry" }
    goalBayes := fun _ =>
      some { achieved := true, confidence := 1/2, remaining_uncertainty := 3
             missing_information := ["imaging"] } }

theorem askIfDoneDetails_bayesian (A : Agent) (pv : Option ValidationResult)
    (h : A.bayesian_mode = true) : askIfDoneDetails A pv = errorValidationResult := by
  simp [askIfDoneDetails, ask_if_done, h, Agent.enable_iterative_refinement_attr]

theorem countToolRuns_append (a b : List Event) :
    countToolRuns (a ++ b) = countToolRuns a + countToolRuns b := by
  induction a with
  | nil => simp [countToolRuns]
  | cons e es ih =>
    cases e <;> (simp [countToolRuns, ih]; try omega)

theorem countValidations_append (a b : List Event) :
    countValidations (a ++ b) = countValidations a + countValidations b := by
  induction a with
  | nil => simp [countValidations]
  | cons e es ih =>
    cases e <;> (simp [countValidations, ih]; try omega)

/-- The tool-call loop only emits call-level events. -/
theorem execCalls_events_shape (A : Agent) (E : Env) (len : Nat) :
    ∀ (calls : List RawCall) (st : St) (pt : Nat) (tso : List String),
    ∀ e ∈ (execCalls A E len calls st pt tso).1, callLevelEvent e = true := by
  intro calls
  induction calls with
  | nil => intro st pt tso e he; simp [execCalls] at he
  | cons c rest ih =>
    intro st pt tso e he
    by_cases hcap : st.step_count ≥ A.max_steps
    · simp [execCalls, hcap] at he
    · by_cases hk : c.name ∈ E.tools
      · by_cases hf :
          loopFatal (loopUpdate st.last_actions (c.name ++ ":" ++ E.optimizeArgs st.opts)) = true
        · simp [execCalls, hcap, hk, hf] at he
        · cases hre : E.execTool st.execs with
          | ok res =>
            simp only [execCalls, hcap, hk, hf, hre, if_neg, if_pos, if_true, if_false,
              Bool.false_eq_true, ite_false, ite_true, List.mem_cons, not_false_eq_true] at he
            rcases he with h | h | h
            · simp [h, callLevelEvent]
            · simp [h, callLevelEvent]
            · exact ih _ _ _ e h
          | error msg =>
            simp only [execCalls, hcap, hk, hf, hre, if_neg, if_pos, if_true, if_false,
              Bool.false_eq_true, ite_false, ite_true, List.mem_cons, not_false_eq_true] at he
            rcases he with h | h | h
            · simp [h, callLevelEvent]
            · simp [h, callLevelEvent]
            · exact ih _ _ _ e h
      · by_cases hf : loopFatal (loopUpdate st.last_actions (c.name ++ ":" ++ c.args)) = true
        · simp [execCalls, hcap, hk, hf] at he
        · simp only [execCalls, hcap, hk, hf, if_neg, if_pos, if_true, if_false,
            Bool.false_eq_true, ite_false, ite_true, List.mem_cons, not_false_eq_true] at he
          rcases he with h | h | h
          · simp [h, callLevelEvent]
          · simp [h, callLevelEvent]
          · exact ih _ _ _ e h

/-- Each tool execution is guarded by `step_count < max_steps` and followed by
exactly one increment, so the number of executions is bounded by the growth of
`step_count`, which itself never passes `max_steps`. -/
theorem execCalls_count (A : Agent) (E : Env) (len : Nat) :
    ∀ (calls : List RawCall) (st : St) (pt : Nat) (tso : List String),
    st.step_count ≤ A.max_steps →
    countToolRuns (execCalls A E len calls st pt tso).1 + st.step_count ≤
        ((execCalls A E len calls st pt tso).2.state).step_count ∧
      ((execCalls A E len calls st pt tso).2.state).step_count ≤ A.max_steps := by
  intro calls
  induction calls with
  | nil => intro st pt tso h; simpa [execCalls, countToolRuns, CallsResult.state] using h
  | cons c rest ih =>
    intro st pt tso h
    by_cases hcap : st.step_count ≥ A.max_steps
    · simpa [execCalls, hcap, countToolRuns, CallsResult.state] using h
    · by_cases hk : c.name ∈ E.tools
      · by_cases hf :
          loopFatal (loopUpdate st.last_actions (c.name ++ ":" ++ E.optimizeArgs st.opts)) = true
        · simp only [execCalls, hcap, hk, hf, if_neg, if_pos, ite_true, ite_false,
            not_false_eq_true, countToolRuns, CallsResult.state]
          omega
        · cases hre : E.execTool st.execs with
          | ok res =>
            have hih := ih ({ st with
              opts := st.opts + 1
              last_actions := loopUpdate st.last_actions (c.name ++ ":" ++ E.optimizeArgs st.opts)
              execs := st.execs + 1
              task_outputs := st.task_outputs ++
                [E.formatOutput c.name (E.optimizeArgs st.opts) res]
              step_count := st.step_count + 1 }) (pt + 1)
              (tso ++ [E.formatOutput c.name (E.optimizeArgs st.opts) res]) (by simp; omega)
            simp only [execCalls, hcap, hk, hf, hre, if_neg, if_pos, if_true, if_false,
              Bool.false_eq_true, ite_false, ite_true, countToolRuns, not_false_eq_true] at hih ⊢
            omega
          | error msg =>
            have hih := ih ({ st with
              opts := st.opts + 1
              last_actions := loopUpdate st.last_actions (c.name ++ ":" ++ E.optimizeArgs st.opts)
              execs := st.execs + 1
              task_outputs := st.task_outputs ++
                [mkErrorRecord c.name (E.optimizeArgs st.opts) msg]
              step_count := st.step_count + 1 }) (pt + 1)
              (tso ++ [mkErrorRecord c.name (E.optimizeArgs st.opts) msg]) (by simp; omega)
            simp only [execCalls, hcap, hk, hf, hre, if_neg, if_pos, if_true, if_false,
              Bool.false_eq_true, ite_false, ite_true, countToolRuns, not_false_eq_true] at hih ⊢
            omega
      · by_cases hf : loopFatal (loopUpdate st.last_actions (c.name ++ ":" ++ c.args)) = true
        · simp only [execCalls, hcap, hk, hf, if_neg, if_pos, ite_true, ite_false,
            not_false_eq_true, countToolRuns, CallsResult.state]
          omega
        · have hih := ih ({ st with
            last_actions := loopUpdate st.last_actions (c.name ++ ":" ++ c.args)
            step_count := st.step_count + 1 }) (pt + 1) tso (by simp; omega)
          simp only [execCalls, hcap, hk, hf, if_neg, if_pos, if_true, if_false,
            Bool.false_eq_true, ite_false, ite_true, countToolRuns, not_false_eq_true] at hih ⊢
          omega

/-- A list has exactly one distinct element exactly when it is nonempty and all
its elements are pairwise equal. -/
theorem dedup_length_one_iff {α : Type} [DecidableEq α] (l : List α) :
    l.dedup.length = 1 ↔ l ≠ [] ∧ ∀ x ∈ l, ∀ y ∈ l, x = y := by
  constructor
  · intro h
    rcases List.length_eq_one.mp h with ⟨a, ha⟩
    refine ⟨?_, ?_⟩
    · intro hnil
      rw [hnil] at ha
      simp at ha
    · intro x hx y hy
      have hx' : x ∈ l.dedup := List.mem_dedup.mpr hx
      have hy' : y ∈ l.dedup := List.mem_dedup.mpr hy
      rw [ha] at hx' hy'
      simp only [List.mem_singleton] at hx' hy'
      rw [hx', hy']
  · rintro ⟨hne, hall⟩
    rcases List.exists_mem_of_ne_nil l hne with ⟨a, ha⟩
    have had : a ∈ l.dedup := List.mem_dedup.mpr ha
    rcases hd : l.dedup with _ | ⟨b, rest⟩
    · rw [hd] at had
      simp at had
    · have hnd := List.nodup_dedup l
      rw [hd] at hnd
      rcases rest with _ | ⟨c, rest2⟩
      · simp
      · exfalso
        have hb : b ∈ l := List.mem_dedup.mp (by rw [hd]; simp)
        have hc : c ∈ l := List.mem_dedup.mp (by rw [hd]; simp)
        have hbc : b = c := hall b hb c hc
        rw [hbc] at hnd
        simp [List.nodup_cons] at hnd

/-- Every counter-increment record emitted by the tool-call loop has
`step_count` at most the global cap (the increment is guarded by
`step_count < max_steps`) and `per_task_steps` at most the entry value plus the
number of proposed calls, and carries the round length it was given. -/
theorem execCalls_step_bound (A : Agent) (E : Env) (len : Nat) :
    ∀ (calls : List RawCall) (st : St) (pt : Nat) (tso : List String),
    ∀ e ∈ (execCalls A E len calls st pt tso).1,
    ∀ sc pt2 l, e = Event.step sc pt2 l →
      sc ≤ A.max_steps ∧ pt2 ≤ pt + calls.length ∧ l = len := by
  intro calls
  induction calls with
  | nil => intro st pt tso e he; simp [execCalls] at he
  | cons c rest ih =>
    intro st pt tso e he
    by_cases hcap : st.step_count ≥ A.max_steps
    · simp [execCalls, hcap] at he
    · by_cases hk : c.name ∈ E.tools
      · by_cases hf :
          loopFatal (loopUpdate st.last_actions (c.name ++ ":" ++ E.optimizeArgs st.opts)) = true
        · simp [execCalls, hcap, hk, hf] at he
        · cases hre : E.execTool st.execs with
          | ok res =>
            simp only [execCalls, hcap, hk, hf, hre, if_neg, if_pos, if_true, if_false,
              Bool.false_eq_true, ite_false, ite_true, List.mem_cons, not_false_eq_true] at he
            rcases he with h | h | h
            · intro sc pt2 l hes; rw [h] at hes; cases hes
            · intro sc pt2 l hes
              rw [h] at hes
              cases hes
              refine ⟨by omega, by simp only [List.length_cons]; omega, rfl⟩
            · intro sc pt2 l hes
              have := ih _ _ _ e h sc pt2 l hes
              refine ⟨this.1, by have h2 := this.2.1; simp only [List.length_cons] at h2 ⊢; omega, this.2.2⟩
          | error msg =>
            simp only [execCalls, hcap, hk, hf, hre, if_neg, if_pos, if_true, if_false,
              Bool.false_eq_true, ite_false, ite_true, List.mem_cons, not_false_eq_true] at he
            rcases he with h | h | h
            · intro sc pt2 l hes; rw [h] at hes; cases hes
            · intro sc pt2 l hes
              rw [h] at hes
              cases hes
              refine ⟨by omega, by simp only [List.length_cons]; omega, rfl⟩
            · intro sc pt2 l hes
              have := ih _ _ _ e h sc pt2 l hes
              refine ⟨this.1, by have h2 := this.2.1; simp only [List.length_cons] at h2 ⊢; omega, this.2.2⟩
      · by_cases hf : loopFatal (loopUpdate st.last_actions (c.name ++ ":" ++ c.args)) = true
        · simp [execCalls, hcap, hk, hf] at he
        · simp only [execCalls, hcap, hk, hf, if_neg, if_pos, if_true, if_false,
            Bool.false_eq_true, ite_false, ite_true, List.mem_cons, not_false_eq_true] at he
          rcases he with h | h | h
          · intro sc pt2 l hes; rw [h] at hes; cases hes
          · intro sc pt2 l hes
            rw [h] at hes
            cases hes
            refine ⟨by omega, by simp only [List.length_cons]; omega, rfl⟩
          · intro sc pt2 l hes
            have := ih _ _ _ e h sc pt2 l hes
            refine ⟨this.1, by have h2 := this.2.1; simp only [List.length_cons] at h2 ⊢; omega, this.2.2⟩

theorem refinementDecision_true {A : Agent} {d : Bool} {p : Nat}
    (h : refinementDecision A d p = true) :
    d = false ∧ A.enable_simple_refinement = true ∧ p ≤ A.max_refinement_attempts := by
  simp only [refinementDecision, Bool.and_eq_true, Bool.not_eq_true', decide_eq_true_eq] at h
  exact ⟨h.1.1, h.1.2, h.2⟩

theorem execCalls_goodEv (A : Agent) (E : Env) (calls : List RawCall) (st : St) (pt : Nat)
    (tso : List String) (hpt : pt < A.max_steps_per_task) :
    ∀ e ∈ (execCalls A E calls.length calls st pt tso).1, GoodEv A e := by
  intro e he
  have hshape := execCalls_events_shape A E calls.length calls st pt tso e he
  have hstep := execCalls_step_bound A E calls.length calls st pt tso e he
  cases e with
  | step sc pt2 l =>
    obtain ⟨h1, h2, h3⟩ := hstep sc pt2 l rfl
    subst h3
    exact ⟨h1, by omega⟩
  | taskExit c b => simp [callLevelEvent] at hshape
  | refine => simp [callLevelEvent] at hshape
  | validation b => simp [callLevelEvent] at hshape
  | taskStart i => simp [callLevelEvent] at hshape
  | goalCheck b => simp [callLevelEvent] at hshape
  | capBreak => simp [callLevelEvent] at hshape
  | capReturn => simp [callLevelEvent] at hshape
  | loopAbort => simp [callLevelEvent] at hshape
  | toolRun n ok => trivial
  | invalidTool n => trivial

theorem innerLoop_goodEv (A : Agent) (E : Env) (idx : Nat) :
    ∀ (fuel : Nat) (st : St) (pt : Nat) (tso : List String),
    (pt = 0 ∨ pt ≤ A.max_refinement_attempts) →
    ∀ e ∈ (innerLoop A E idx fuel st pt tso).1, GoodEv A e := by
  intro fuel
  induction fuel with
  | zero => intro st pt tso _ e he; simp [innerLoop] at he
  | succ fuel ih =>
    intro st pt tso hinv e he
    by_cases hpt : pt < A.max_steps_per_task
    · by_cases hcap : st.step_count ≥ A.max_steps
      · simp only [innerLoop, hpt, hcap, if_pos, if_true, List.mem_singleton] at he
        rw [he]; trivial
      · cases hask : E.askActions st.asks with
        | agentError =>
          simp only [innerLoop, hpt, hcap, hask, if_pos, if_neg, not_false_eq_true,
            List.mem_singleton] at he
          rw [he]
          simp [GoodEv]
        | proposals calls =>
          cases calls with
          | nil =>
            simp only [innerLoop, hpt, hcap, hask, if_pos, if_neg, not_false_eq_true,
              List.mem_singleton] at he
            rw [he]
            simp [GoodEv]
          | cons c cs =>
            simp only [innerLoop, hpt, hcap, hask, if_pos, if_neg, not_false_eq_true] at he
            cases hr : (execCalls A E (c :: cs).length (c :: cs)
                { st with asks := st.asks + 1 } pt tso).2 with
            | loopAbortRun st2 =>
              rw [hr] at he
              dsimp only at he
              simp only [List.mem_append, List.mem_singleton] at he
              rcases he with h | h
              · exact execCalls_goodEv A E (c :: cs) _ pt tso hpt e h
              · rw [h]; trivial
            | finished st2 pt2 tso2 =>
              rw [hr] at he
              dsimp only at he
              by_cases hmcp :
                  (isMcpTask (getTask st2.tasks idx).description && !mcpToolCalled tso2) = true
              · simp only [hmcp, if_pos, if_true, ite_true, List.mem_append,
                  List.mem_singleton] at he
                rcases he with h | h
                · exact execCalls_goodEv A E (c :: cs) _ pt tso hpt e h
                · rw [h]
                  simp [GoodEv]
              · by_cases hb : A.bayesian_mode = true
                · rw [askIfDoneDetails_bayesian A _ hb] at he
                  simp only [hmcp, hb, if_pos, if_neg, if_true, if_false, ite_true, ite_false,
                    Bool.false_eq_true, not_false_eq_true, errorValidationResult] at he
                  by_cases hrd : refinementDecision A false pt2 = true
                  · simp only [hrd, if_pos, ite_true, List.mem_append, List.mem_cons,
                      List.not_mem_nil, or_false] at he
                    rcases he with (h | h | h) | h
                    · exact execCalls_goodEv A E (c :: cs) _ pt tso hpt e h
                    · rw [h]; exact fun _ => rfl
                    · rw [h]
                      exact (refinementDecision_true hrd).2.1
                    · exact ih _ pt2 tso2 (Or.inr (refinementDecision_true hrd).2.2) e h
                  · simp only [hrd, if_neg, ite_false, Bool.false_eq_true, List.mem_append,
                      List.mem_cons, List.not_mem_nil, or_false] at he
                    rcases he with h | h | h
                    · exact execCalls_goodEv A E (c :: cs) _ pt tso hpt e h
                    · rw [h]; exact fun _ => rfl
                    · rw [h]
                      simp [GoodEv]
                · simp only [hmcp, hb, if_pos, if_neg, if_true, if_false, ite_true, ite_false,
                    Bool.false_eq_true, not_false_eq_true] at he
                  by_cases hrd : refinementDecision A
                      (match ask_if_done A none (E.isDoneProvider st2.vals) false with
                        | AskResult.bool b => b
                        | AskResult.details r => r.done) pt2 = true
                  · simp only [hrd, if_pos, ite_true, List.mem_append, List.mem_cons,
                      List.not_mem_nil, or_false] at he
                    rcases he with (h | h | h) | h
                    · exact execCalls_goodEv A E (c :: cs) _ pt tso hpt e h
                    · rw [h]
                      exact fun hb2 => absurd hb2 hb
                    · rw [h]
                      exact (refinementDecision_true hrd).2.1
                    · exact ih _ pt2 tso2 (Or.inr (refinementDecision_true hrd).2.2) e h
                  · simp only [hrd, if_neg, ite_false, Bool.false_eq_true, List.mem_append,
                      List.mem_cons, List.not_mem_nil, or_false] at he
                    rcases he with h | h | h
                    · exact execCalls_goodEv A E (c :: cs) _ pt tso hpt e h
                    · rw [h]
                      exact fun hb2 => absurd hb2 hb
                    · rw [h]
                      exact ⟨fun _ hb2 => absurd hb2 (by decide), fun hb2 => absurd hb2 hb⟩
    · simp only [innerLoop, hpt, if_neg, not_false_eq_true, List.mem_singleton] at he
      rw [he]
      refine ⟨fun hra _ => ?_, fun _ h2 => by cases h2.1⟩
      exfalso
      rcases hinv with h0 | hle <;> omega

theorem outerLoop_goodEv (A : Agent) (E : Env) :
    ∀ (fuel : Nat) (st : St), ∀ e ∈ (outerLoop A E fuel st).trace, GoodEv A e := by
  intro fuel
  induction fuel with
  | zero => intro st e he; simp [outerLoop] at he
  | succ fuel ih =>
    intro st e he
    cases hidx : st.tasks.findIdx? (fun t => !t.done) with
    | none => simp [outerLoop, hidx, finishRun] at he
    | some idx =>
      by_cases hcap : st.step_count ≥ A.max_steps
      · simp only [outerLoop, hidx, hcap, if_pos, if_true, finishRun, List.mem_cons,
          List.not_mem_nil, or_false] at he
        rw [he]; trivial
      · simp only [outerLoop, hidx, hcap, if_neg, not_false_eq_true] at he
        cases hex : (innerLoop A E idx fuel st 0 []).2.2 with
        | capReturnRun =>
          rw [hex] at he
          dsimp only at he
          simp only [List.mem_cons] at he
          rcases he with h | h
          · rw [h]; trivial
          · exact innerLoop_goodEv A E idx fuel st 0 [] (Or.inl rfl) e h
        | loopAbortRun =>
          rw [hex] at he
          dsimp only at he
          simp only [List.mem_cons] at he
          rcases he with h | h
          · rw [h]; trivial
          · exact innerLoop_goodEv A E idx fuel st 0 [] (Or.inl rfl) e h
        | ranOut =>
          rw [hex] at he
          dsimp only at he
          simp only [List.mem_cons] at he
          rcases he with h | h
          · rw [h]; trivial
          · exact innerLoop_goodEv A E idx fuel st 0 [] (Or.inl rfl) e h
        | toOuter =>
          rw [hex] at he
          dsimp only at he
          by_cases hdone : (getTask (innerLoop A E idx fuel st 0 []).2.1.tasks idx).done = true
          · by_cases hach : goalAchieved (is_goal_achieved A
                (E.goalBayes (innerLoop A E idx fuel st 0 []).2.1.goals)
                (E.goalDet (innerLoop A E idx fuel st 0 []).2.1.goals)) = true
            · simp only [hdone, hach, if_pos, if_true, ite_true, finishRun, List.mem_cons,
                List.mem_append, List.not_mem_nil, or_false] at he
              rcases he with (h | h) | h
              · rw [h]; trivial
              · exact innerLoop_goodEv A E idx fuel st 0 [] (Or.inl rfl) e h
              · rw [h]; trivial
            · simp only [hdone, hach, if_pos, if_neg, if_true, ite_true, ite_false,
                Bool.false_eq_true, not_false_eq_true, List.mem_cons, List.mem_append] at he
              rcases he with (h | h) | h | h
              · rw [h]; trivial
              · exact innerLoop_goodEv A E idx fuel st 0 [] (Or.inl rfl) e h
              · rw [h]; trivial
              · exact ih _ e h
          · simp only [hdone, if_neg, ite_false, Bool.false_eq_true, not_false_eq_true,
              List.mem_cons, List.mem_append] at he
            rcases he with (h | h) | h
            · rw [h]; trivial
            · exact innerLoop_goodEv A E idx fuel st 0 [] (Or.inl rfl) e h
            · exact ih _ e h

/-- Every event of a run's control trace satisfies the per-event invariants. -/
theorem run_goodEv (A : Agent) (E : Env) (tasks : List PyTask) (fuel : Nat) :
    ∀ e ∈ (Agent.run A E tasks fuel).trace, GoodEv A e := by
  intro e he
  by_cases hemp : tasks.isEmpty
  · simp [Agent.run, hemp, finishRun] at he
  · simp only [Agent.run, hemp, if_neg, ite_false, Bool.false_eq_true,
      not_false_eq_true] at he
    exact outerLoop_goodEv A E fuel _ e he

theorem innerLoop_count (A : Agent) (E : Env) (idx : Nat) :
    ∀ (fuel : Nat) (st : St) (pt : Nat) (tso : List String),
    st.step_count ≤ A.max_steps →
    countToolRuns (innerLoop A E idx fuel st pt tso).1 + st.step_count ≤
        (innerLoop A E idx fuel st pt tso).2.1.step_count ∧
      (innerLoop A E idx fuel st pt tso).2.1.step_count ≤ A.max_steps := by
  intro fuel
  induction fuel with
  | zero => intro st pt tso h; simpa [innerLoop, countToolRuns] using h
  | succ fuel ih =>
    intro st pt tso h
    by_cases hpt : pt < A.max_steps_per_task
    · by_cases hcap : st.step_count ≥ A.max_steps
      · simpa [innerLoop, hpt, hcap, countToolRuns] using h
      · cases hask : E.askActions st.asks with
        | agentError => simpa [innerLoop, hpt, hcap, hask, countToolRuns] using h
        | proposals calls =>
          cases calls with
          | nil => simpa [innerLoop, hpt, hcap, hask, countToolRuns] using h
          | cons c cs =>
            have hec := execCalls_count A E (c :: cs).length (c :: cs)
              { st with asks := st.asks + 1 } pt tso (by simpa using h)
            simp only [innerLoop, hpt, hcap, hask, if_pos, if_neg, not_false_eq_true]
            cases hr : (execCalls A E (c :: cs).length (c :: cs)
                { st with asks := st.asks + 1 } pt tso).2 with
            | loopAbortRun st2 =>
              rw [hr] at hec
              dsimp only [CallsResult.state] at hec
              dsimp only
              simp only [countToolRuns_append, countToolRuns]
              omega
            | finished st2 pt2 tso2 =>
              rw [hr] at hec
              dsimp only [CallsResult.state] at hec
              dsimp only
              by_cases hmcp :
                  (isMcpTask (getTask st2.tasks idx).description && !mcpToolCalled tso2) = true
              · simp only [hmcp, if_pos, if_true, ite_true, countToolRuns_append, countToolRuns]
                omega
              · by_cases hb : A.bayesian_mode = true
                · rw [askIfDoneDetails_bayesian A _ hb]
                  simp only [hmcp, hb, if_pos, if_neg, if_true, if_false, ite_true, ite_false,
                    Bool.false_eq_true, not_false_eq_true, errorValidationResult]
                  by_cases hrd : refinementDecision A false pt2 = true
                  · have hrec := ih { st2 with vals := st2.vals + 1 } pt2 tso2 (by simpa using hec.2)
                    simp only [hrd, if_pos, ite_true, countToolRuns_append, countToolRuns]
                    dsimp only at hrec
                    omega
                  · simp only [hrd, if_neg, ite_false, Bool.false_eq_true,
                      countToolRuns_append, countToolRuns]
                    by_cases hps : A.persist_outputs = true
                    · simp only [hps, if_pos, ite_true]
                      omega
                    · simp only [hps, if_neg, ite_false, Bool.false_eq_true]
                      omega
                · simp only [hmcp, hb, if_pos, if_neg, if_true, if_false, ite_true, ite_false,
                    Bool.false_eq_true, not_false_eq_true]
                  by_cases hrd : refinementDecision A
                      (match ask_if_done A none (E.isDoneProvider st2.vals) false with
                        | AskResult.bool b => b
                        | AskResult.details r => r.done) pt2 = true
                  · have hrec := ih { st2 with vals := st2.vals + 1 } pt2 tso2 (by simpa using hec.2)
                    simp only [hrd, if_pos, ite_true, countToolRuns_append, countToolRuns]
                    dsimp only at hrec
                    omega
                  · simp only [hrd, if_neg, ite_false, Bool.false_eq_true,
                      countToolRuns_append, countToolRuns]
                    by_cases hps : A.persist_outputs = true
                    · simp only [hps, if_pos, ite_true]
                      omega
                    · simp only [hps, if_neg, ite_false, Bool.false_eq_true]
                      omega
    · simpa [innerLoop, hpt, countToolRuns] using h

theorem outerLoop_count (A : Agent) (E : Env) :
    ∀ (fuel : Nat) (st : St), st.step_count ≤ A.max_steps →
    countToolRuns (outerLoop A E fuel st).trace + st.step_count ≤
        (outerLoop A E fuel st).final.step_count ∧
      (outerLoop A E fuel st).final.step_count ≤ A.max_steps := by
  intro fuel
  induction fuel with
  | zero => intro st h; simpa [outerLoop, countToolRuns] using h
  | succ fuel ih =>
    intro st h
    cases hidx : st.tasks.findIdx? (fun t => !t.done) with
    | none => simpa [outerLoop, hidx, finishRun, countToolRuns] using h
    | some idx =>
      by_cases hcap : st.step_count ≥ A.max_steps
      · simpa [outerLoop, hidx, hcap, finishRun, countToolRuns] using h
      · have hin := innerLoop_count A E idx fuel st 0 [] h
        simp only [outerLoop, hidx, hcap, if_pos, if_neg, not_false_eq_true]
        cases hex : (innerLoop A E idx fuel st 0 []).2.2 with
        | capReturnRun =>
          dsimp only
          simp only [countToolRuns]
          omega
        | loopAbortRun =>
          dsimp only
          simp only [countToolRuns]
          omega
        | ranOut =>
          dsimp only
          simp only [countToolRuns]
          omega
        | toOuter =>
          dsimp only
          by_cases hdone : (getTask (innerLoop A E idx fuel st 0 []).2.1.tasks idx).done = true
          · by_cases hach : goalAchieved (is_goal_achieved A
                (E.goalBayes (innerLoop A E idx fuel st 0 []).2.1.goals)
                (E.goalDet (innerLoop A E idx fuel st 0 []).2.1.goals)) = true
            · simp only [hdone, hach, if_pos, if_true, ite_true, finishRun, countToolRuns,
                countToolRuns_append]
              omega
            · have hrec := ih { (innerLoop A E idx fuel st 0 []).2.1 with
                goals := (innerLoop A E idx fuel st 0 []).2.1.goals + 1 } (by simpa using hin.2)
              simp only [hdone, hach, if_pos, if_neg, if_true, ite_true, ite_false,
                Bool.false_eq_true, not_false_eq_true, countToolRuns, countToolRuns_append]
              dsimp only at hrec
              omega
          · have hrec := ih (innerLoop A E idx fuel st 0 []).2.1 hin.2
            simp only [hdone, if_neg, ite_false, Bool.false_eq_true, not_false_eq_true,
              countToolRuns, countToolRuns_append]
            omega

theorem execCalls_congr (A : Agent) (e1 e2 : Env) (h : ObsEquiv e1 e2) (len : Nat) :
    ∀ (calls : List RawCall) (st : St) (pt : Nat) (tso : List String),
    execCalls A e1 len calls st pt tso = execCalls A e2 len calls st pt tso := by
  intro calls
  induction calls with
  | nil => intro st pt tso; simp [execCalls]
  | cons c rest ih =>
    intro st pt tso
    simp only [execCalls, h.tools_eq, h.opt_eq, h.exec_eq, h.fmt_eq, ih]

theorem goalAchieved_congr (A : Agent) {o1 o2 : Option BayesianMetaValidation}
    (hrel : GoalObsRel o1 o2) (pd : Option Bool) :
    goalAchieved (is_goal_achieved A o1 pd) = goalAchieved (is_goal_achieved A o2 pd) := by
  cases o1 with
  | none =>
    cases o2 with
    | none => rfl
    | some b => cases hrel
  | some a =>
    cases o2 with
    | none => cases hrel
    | some b =>
      simp only [ValidObsRel, GoalObsRel] at hrel
      by_cases hb : A.bayesian_mode = true
      · simp [is_goal_achieved, goalAchieved, hb, hrel]
      · simp [is_goal_achieved, goalAchieved, hb]

theorem innerLoop_congr (A : Agent) (e1 e2 : Env) (h : ObsEquiv e1 e2) (idx : Nat) :
    ∀ (fuel : Nat) (st : St) (pt : Nat) (tso : List String),
    innerLoop A e1 idx fuel st pt tso = innerLoop A e2 idx fuel st pt tso := by
  intro fuel
  induction fuel with
  | zero => intro st pt tso; simp [innerLoop]
  | succ fuel ih =>
    intro st pt tso
    have hec := execCalls_congr A e1 e2 h
    by_cases hb : A.bayesian_mode = true
    · have hrw : ∀ pv, askIfDoneDetails A pv = errorValidationResult :=
        fun pv => askIfDoneDetails_bayesian A pv hb
      simp only [innerLoop, hb, if_pos, ite_true, h.ask_eq, hec, hrw, h.isDone_eq, ih]
    · simp only [innerLoop, hb, Bool.false_eq_true, if_neg, ite_false, not_false_eq_true,
        h.ask_eq, hec, h.isDone_eq, ih]

theorem outerLoop_congr (A : Agent) (e1 e2 : Env) (h : ObsEquiv e1 e2) :
    ∀ (fuel : Nat) (st : St), outerLoop A e1 fuel st = outerLoop A e2 fuel st := by
  intro fuel
  induction fuel with
  | zero => intro st; simp [outerLoop]
  | succ fuel ih =>
    intro st
    have hg : ∀ n pd, goalAchieved (is_goal_achieved A (e1.goalBayes n) pd) =
        goalAchieved (is_goal_achieved A (e2.goalBayes n) pd) :=
      fun n pd => goalAchieved_congr A (h.goal_rel n) pd
    simp only [outerLoop, innerLoop_congr A e1 e2 h, h.goalDet_eq, hg, ih, finishRun,
      h.answer_eq]

/-- Characterization of the loop guard: after inserting a new signature, the
fatal test holds exactly when the buffer holds 4 pairwise-identical entries. -/
theorem loopGuard_char (la : List String) (sig : String) :
    loopFatal (loopUpdate la sig) = true ↔
      (loopUpdate la sig).length = 4 ∧
        ∀ x ∈ loopUpdate la sig, ∀ y ∈ loopUpdate la sig, x = y := by
  simp only [loopFatal, Bool.and_eq_true, beq_iff_eq]
  rw [dedup_length_one_iff]
  constructor
  · rintro ⟨⟨_, hall⟩, hlen⟩
    exact ⟨hlen, hall⟩
  · rintro ⟨hlen, hall⟩
    refine ⟨⟨?_, hall⟩, hlen⟩
    intro hnil
    rw [hnil] at hlen
    simp at hlen

/-- C4 — confirmed.  Runaway-loop detection fires exactly when the 4 most
recent action signatures are pairwise identical (the buffer is full and
constant); 3 identical signatures followed by a distinct one never fire; and
when it fires the whole run returns (Python `None`): in the concrete scenario
of four identical proposed calls the run aborts with only 3 tool executions
performed — the detection happens before the fourth execution, a fortiori
before any fifth identical call — and no answer is synthesized (the outcome is
the bare-`return` `None`, not an answer). -/
theorem loop_guard_fires_iff_four_identical :
    (∀ (la : List String) (sig : String),
      loopFatal (loopUpdate la sig) = true ↔
        (loopUpdate la sig).length = 4 ∧
          ∀ x ∈ loopUpdate la sig, ∀ y ∈ loopUpdate la sig, x = y) ∧
    (∀ s t : String, s ≠ t → loopFatal (loopUpdate [s, s, s] t) = false) ∧
    ((Agent.run agentDefault envFourIdentical tasksOne 10).outcome = Outcome.noneLoopAbort ∧
      countToolRuns (Agent.run agentDefault envFourIdentical tasksOne 10).trace = 3) := by
  refine ⟨loopGuard_char, ?_, by decide⟩
  intro s t hst
  by_contra hf
  rw [Bool.not_eq_false] at hf
  obtain ⟨_, hall⟩ := (loopGuard_char [s, s, s] t).mp hf
  have hs : s ∈ loopUpdate [s, s, s] t := by simp [loopUpdate]
  have ht : t ∈ loopUpdate [s, s, s] t := by simp [loopUpdate]
  exact hst (hall s hs t ht)

/-- Witness for `loop_guard_fires_iff_four_identical`: at the concrete buffer
`["a","a","a"]` with the distinct new signature `"b"` the hypotheses hold and
the guard does not fire. -/
theorem loop_guard_fires_iff_four_identical_witness :
    ("a" : String) ≠ "b" ∧ loopFatal (loopUpdate ["a", "a", "a"] "b") = false :=
  ⟨by decide, loop_guard_fires_iff_four_identical.2.1 "a" "b" (by decide)⟩

/-- C8 — confirmed.  On provider failure (`none` responses) `ask_if_done`
returns the conservative default — `done = false` as a plain boolean, or, when
validation details are requested, the exact `ValidationResult` with
`confidence = 0`, `data_completeness = 0` and the single advisory entry — and
`is_goal_achieved` returns `achieved = false` with `confidence = 0`,
`remaining_uncertainty` at its maximum 5 and a single advisory entry in
Bayesian mode, plain `False` in deterministic mode. -/
theorem provider_failure_conservative_default :
    (∀ (A : Agent) (rvd : Bool),
      ask_if_done A none none rvd =
        if rvd then
          AskResult.details
            { done := false, confidence := 0, data_completeness := 0
              uncertainty_factors := ["Validation failed due to error"]
              refinement_suggestion := none }
        else AskResult.bool false) ∧
    (∀ A : Agent,
      is_goal_achieved A none none =
        if A.bayesian_mode then
          GoalResult.dict
            { achieved := false, confidence := 0, remaining_uncertainty := 5
              missing_information := ["Meta-validation failed due to error"] }
        else GoalResult.bool false) := by
  constructor
  · intro A rvd
    cases hb : A.bayesian_mode <;> cases rvd <;>
      simp [ask_if_done, Agent.enable_iterative_refinement_attr, errorValidationResult, hb]
  · intro A
    cases hb : A.bayesian_mode <;> simp [is_goal_achieved, errorGoalDict, hb]

/-- C9 — confirmed.  In Bayesian mode `ask_if_done` with
`return_validation_details = True` returns the error-handler
`ValidationResult` (`done = false`, `confidence = 0`, `data_completeness = 0`,
`uncertainty_factors = ["Validation failed due to error"]`) regardless of the
provider responses, because evaluating the branch condition reads the
never-assigned attribute `enable_iterative_refinement` and the resulting
`AttributeError` lands in the generic failure handler.  Consequently, in every
Bayesian-mode run, every validation outcome observed by the loop has
`done = false`, and no task ever exits through the validated-done path — tasks
complete only via forced completion or an empty proposal. -/
theorem bayesian_validation_always_error_default :
    (∀ (A : Agent) (pv : Option ValidationResult) (pd : Option Bool),
      A.bayesian_mode = true →
        ask_if_done A pv pd true = AskResult.details errorValidationResult) ∧
    (∀ (A : Agent) (E : Env) (tasks : List PyTask) (fuel : Nat),
      A.bayesian_mode = true →
        (∀ b, Event.validation b ∈ (Agent.run A E tasks fuel).trace → b = false) ∧
          Event.taskExit ExitCause.validated true ∉ (Agent.run A E tasks fuel).trace) := by
  constructor
  · intro A pv pd hb
    simp [ask_if_done, Agent.enable_iterative_refinement_attr, hb]
  · intro A E tasks fuel hb
    constructor
    · intro b hmem
      exact run_goodEv A E tasks fuel _ hmem hb
    · intro hmem
      exact (run_goodEv A E tasks fuel _ hmem).2 hb ⟨rfl, rfl⟩

/-- Witness for `bayesian_validation_always_error_default`: the default
Bayesian agent with a provider that affirms completion with full confidence
still gets the error default, and a concrete Bayesian run never validates done. -/
theorem bayesian_validation_always_error_default_witness :
    agentBayes.bayesian_mode = true ∧
      ask_if_done agentBayes
          (some { done := true, confidence := 1, data_completeness := 1
                  uncertainty_factors := [], refinement_suggestion := none })
          (some true) true =
        AskResult.details errorValidationResult ∧
      Event.taskExit ExitCause.validated true ∉
        (Agent.run agentBayes envBase tasksOne 5).trace :=
  ⟨rfl,
   bayesian_validation_always_error_default.1 agentBayes _ _ rfl,
   (bayesian_validation_always_error_default.2 agentBayes envBase tasksOne 5 rfl).2⟩

/-- C10 — confirmed.  Processing one proposed call whose tool name is not in
the catalog increments both `step_count` and `per_task_steps` but appends
nothing to either output sequence and leaves the rest of the state unchanged
(only the loop-guard buffer advances); a tool-execution failure instead
appends the formatted error record to both the session outputs and the task's
round outputs while consuming the same budget. -/
theorem invalid_tool_frame_effect :
    ∀ (A : Agent) (E : Env) (st : St) (pt : Nat) (tso : List String) (name args : String),
    st.step_count < A.max_steps →
    (name ∉ E.tools →
      loopFatal (loopUpdate st.last_actions (name ++ ":" ++ args)) = false →
      execCalls A E 1 [{ name := name, args := args }] st pt tso =
        ([Event.invalidTool name, Event.step (st.step_count + 1) (pt + 1) 1],
          CallsResult.finished
            { st with
              last_actions := loopUpdate st.last_actions (name ++ ":" ++ args)
              step_count := st.step_count + 1 }
            (pt + 1) tso)) ∧
    (∀ msg, name ∈ E.tools →
      E.execTool st.execs = Except.error msg →
      loopFatal (loopUpdate st.last_actions (name ++ ":" ++ E.optimizeArgs st.opts)) = false →
      execCalls A E 1 [{ name := name, args := args }] st pt tso =
        ([Event.toolRun name false, Event.step (st.step_count + 1) (pt + 1) 1],
          CallsResult.finished
            { st with
              opts := st.opts + 1
              last_actions := loopUpdate st.last_actions (name ++ ":" ++ E.optimizeArgs st.opts)
              execs := st.execs + 1
              task_outputs := st.task_outputs ++ [mkErrorRecord name (E.optimizeArgs st.opts) msg]
              step_count := st.step_count + 1 }
            (pt + 1) (tso ++ [mkErrorRecord name (E.optimizeArgs st.opts) msg]))) := by
  intro A E st pt tso name args hcap
  constructor
  · intro hk hf
    simp [execCalls, hcap, hk, hf, Nat.not_le_of_lt hcap]
  · intro msg hk hre hf
    simp [execCalls, hcap, hk, hre, hf, Nat.not_le_of_lt hcap]

/-- Witness for `invalid_tool_frame_effect`: with an empty loop-guard buffer
and one free step, the uncatalogued tool `"bad"` consumes budget silently. -/
theorem invalid_tool_frame_effect_witness :
    (stWitness.step_count < agentDefault.max_steps ∧ "bad" ∉ envBase.tools ∧
      loopFatal (loopUpdate stWitness.last_actions ("bad" ++ ":" ++ "x")) = false) ∧
      execCalls agentDefault envBase 1 [{ name := "bad", args := "x" }] stWitness 0 [] =
        ([Event.invalidTool "bad", Event.step (stWitness.step_count + 1) 1 1],
          CallsResult.finished
            { stWitness with
              last_actions := loopUpdate stWitness.last_actions ("bad" ++ ":" ++ "x")
              step_count := stWitness.step_count + 1 }
            1 []) :=
  ⟨⟨by decide, by decide, by decide⟩,
   (invalid_tool_frame_effect agentDefault envBase stWitness 0 [] "bad" "x"
      (by decide)).1 (by decide) (by decide)⟩

/-- C1 — code bug.  When the global step budget is exhausted mid-task (here:
`max_steps = 1`, one task, one executed call, validation not done, refinement
retry), the inner-loop re-check at agent.py line 395-397 executes a bare
`return`: the run ends with Python `None`, `_generate_answer` is never called,
and no answer is produced — although `run`'s own docstring promises a `str`
and the spec calls global-cap exhaustion degraded-not-fatal.  (The outer-loop
check at lines 384-386 does fall through to synthesis, but this path does
not.)  The theorem evaluates the run at the failing input: the outcome is the
`None` return, the cap was reached, and a task is still not done. -/
theorem global_cap_midtask_returns_none :
    (Agent.run agentCapOne envCapOne tasksOne 10).outcome = Outcome.noneGlobalCap ∧
      Event.capReturn ∈ (Agent.run agentCapOne envCapOne tasksOne 10).trace ∧
      (Agent.run agentCapOne envCapOne tasksOne 10).final.step_count = agentCapOne.max_steps ∧
      ((Agent.run agentCapOne envCapOne tasksOne 10).final.tasks.any fun t => !t.done) = true := by
  decide

/-- C2 — counterexample.  Under the default configuration
(`max_steps_per_task = 5`) a single proposal with seven tool calls drives
`per_task_steps` to 6 and 7: the increments at agent.py lines 457-458 are not
re-guarded by the per-task bound inside the `for` loop, so the claimed
invariant `per_task_steps ≤ maxStepsPerTask` after every increment is false. -/
theorem per_task_exceeds_budget_cx :
    Event.step 6 6 7 ∈ (Agent.run agentDefault envSevenCalls tasksOne 10).trace ∧
      agentDefault.max_steps_per_task < 6 := by
  decide

/-- C2 — amended.  After every increment, `step_count ≤ maxGlobalSteps` holds,
and `per_task_steps` is bounded by `maxStepsPerTask - 1` plus the length of the
current round's proposal (the per-task guard is only checked at round entry,
so one multi-call proposal can overshoot by up to its length minus one; with
single-call proposals the original invariant holds). -/
theorem per_task_step_bound_amended (A : Agent) (E : Env) (tasks : List PyTask) (fuel : Nat)
    (sc pt len : Nat) (h : Event.step sc pt len ∈ (Agent.run A E tasks fuel).trace) :
    sc ≤ A.max_steps ∧ pt ≤ A.max_steps_per_task - 1 + len :=
  run_goodEv A E tasks fuel _ h

/-- Witness for `per_task_step_bound_amended` at the seventh increment of the
counterexample run. -/
theorem per_task_step_bound_amended_witness :
    Event.step 7 7 7 ∈ (Agent.run agentDefault envSevenCalls tasksOne 10).trace ∧
      (7 ≤ agentDefault.max_steps ∧ 7 ≤ agentDefault.max_steps_per_task - 1 + 7) :=
  ⟨by decide,
   per_task_step_bound_amended agentDefault envSevenCalls tasksOne 10 7 7 7 (by decide)⟩

/-- C3 — confirmed.  For every configuration, oracle environment, planned task
list and fuel, a run performs at most `max_steps` tool invocations: each
execution is preceded by the `step_count < max_steps` check of agent.py
line 422 and followed by exactly one increment of `step_count`. -/
theorem tool_invocations_at_most_max_steps (A : Agent) (E : Env) (tasks : List PyTask)
    (fuel : Nat) : countToolRuns (Agent.run A E tasks fuel).trace ≤ A.max_steps := by
  by_cases hemp : tasks.isEmpty
  · simp [Agent.run, hemp, finishRun, countToolRuns]
  · have h := outerLoop_count A E fuel
      { step_count := 0, last_actions := [], task_outputs := [], tasks := tasks
        asks := 0, opts := 0, execs := 0, vals := 0, goals := 0, saves := [] }
      (Nat.zero_le _)
    simp only [Agent.run, hemp, if_neg, ite_false, Bool.false_eq_true, not_false_eq_true]
    omega

/-- C5 — counterexample.  With `max_steps_per_task = 1` and
`max_refinement_attempts = 1`, a not-done round takes the refinement retry
(`per_task_steps = 1 ≤ 1`) and then fails the `while per_task_steps <
max_steps_per_task` re-check: the per-task budget is exhausted yet control
returns to the outer task-selection loop with `task.done` still false — the
claimed forcing of `done = true` on budget exhaustion does not happen, and the
exit cause is neither a provider failure nor an unmet precondition.  The run
then re-selects the same task and completes. -/
theorem budget_exit_not_done_cx :
    Event.taskExit ExitCause.budget false ∈
        (Agent.run agentTightBudget envTightBudget tasksOne 10).trace ∧
      agentTightBudget.enable_simple_refinement = true ∧
      (Agent.run agentTightBudget envTightBudget tasksOne 10).outcome =
        Outcome.answer "ANSWER" := by
  decide

/-- C5 — amended.  Provided `maxRefinementAttempts < maxStepsPerTask` (as in
the default configuration 1 < 5), whenever the per-task execution returns
control to the outer task-selection loop with the task still not done, the
cause was a provider/agent failure or the unmet MCP precondition; in
particular the per-task-budget exit then always carries `done = true` (it is
unreachable), and exhausting the refinement allowance forces `done = true`
before control returns.  If `maxRefinementAttempts ≥ maxStepsPerTask`, a
refinement retry can exhaust the per-task round budget and return with the
task not done. -/
theorem not_done_exit_causes_amended (A : Agent) (E : Env) (tasks : List PyTask)
    (fuel : Nat) (c : ExitCause) (b : Bool)
    (hra : A.max_refinement_attempts < A.max_steps_per_task)
    (hmem : Event.taskExit c b ∈ (Agent.run A E tasks fuel).trace) (hb : b = false) :
    c = ExitCause.agentError ∨ c = ExitCause.mcpGate :=
  (run_goodEv A E tasks fuel _ hmem).1 hra hb

/-- Witness for `not_done_exit_causes_amended`: under the default
configuration a run whose proposals fail exits its task not-done with cause
`agentError`, which the theorem classifies. -/
theorem not_done_exit_causes_amended_witness :
    (agentDefault.max_refinement_attempts < agentDefault.max_steps_per_task ∧
      Event.taskExit ExitCause.agentError false ∈
        (Agent.run agentDefault envAskFails tasksOne 3).trace) ∧
      (ExitCause.agentError = ExitCause.agentError ∨
        ExitCause.agentError = ExitCause.mcpGate) :=
  ⟨⟨by decide, by decide⟩,
   not_done_exit_causes_amended agentDefault envAskFails tasksOne 3
     ExitCause.agentError false (by decide) (by decide) rfl⟩

/-- C6 — counterexample.  Refinement enabled, `max_refinement_attempts = 1`,
first-round validation returns `done = false` after exactly one round — so by
the claim (rounds attempted so far = 1 ≤ 1) a refinement round must start.  It
does not: the round's proposal held two tool calls, so the code's condition
`per_task_steps <= max_refinement_attempts` (agent.py line 507) compares the
per-task tool-call count 2, not the round count 1, and the task is instead
force-completed.  Exactly one validation happened and no refinement restart
appears in the trace. -/
theorem refinement_skipped_despite_round_budget_cx :
    agentDefault.enable_simple_refinement = true ∧
      agentDefault.max_refinement_attempts = 1 ∧
      Event.validation false ∈ (Agent.run agentDefault envTwoCallRound tasksOne 10).trace ∧
      countValidations (Agent.run agentDefault envTwoCallRound tasksOne 10).trace = 1 ∧
      Event.refine ∉ (Agent.run agentDefault envTwoCallRound tasksOne 10).trace ∧
      Event.taskExit ExitCause.forced true ∈
        (Agent.run agentDefault envTwoCallRound tasksOne 10).trace := by
  decide

/-- C6 — amended.  A refinement round is started if and only if the validation
outcome's `done` is false, refinement is enabled, and the per-task tool-call
count `per_task_steps` (not the number of rounds) is `≤ maxRefinementAttempts`;
the two coincide only when every proposal holds a single call.  With
refinement disabled no refinement restart ever occurs in any run, and in the
concrete disabled scenario a task whose first-round validation returns
`done = false` is force-completed after exactly one round; with refinement
enabled and a single-call round, the restart does occur. -/
theorem refinement_decision_amended :
    (∀ (A : Agent) (d : Bool) (p : Nat),
      refinementDecision A d p = true ↔
        d = false ∧ A.enable_simple_refinement = true ∧ p ≤ A.max_refinement_attempts) ∧
    (∀ (A : Agent) (E : Env) (tasks : List PyTask) (fuel : Nat),
      A.enable_simple_refinement = false →
        Event.refine ∉ (Agent.run A E tasks fuel).trace) ∧
    (countValidations (Agent.run agentNoRefinement envOneCallRound tasksOne 10).trace = 1 ∧
      Event.refine ∉ (Agent.run agentNoRefinement envOneCallRound tasksOne 10).trace ∧
      Event.taskExit ExitCause.forced true ∈
        (Agent.run agentNoRefinement envOneCallRound tasksOne 10).trace) ∧
    Event.refine ∈ (Agent.run agentDefault envOneCallRound tasksOne 10).trace := by
  refine ⟨?_, ?_, by decide, by decide⟩
  · intro A d p
    constructor
    · exact refinementDecision_true
    · rintro ⟨hd, hen, hp⟩
      simp [refinementDecision, hd, hen, hp]
  · intro A E tasks fuel hen hmem
    have := run_goodEv A E tasks fuel _ hmem
    simp only [GoodEv] at this
    rw [this] at hen
    cases hen

/-- Witness for `refinement_decision_amended`: with refinement disabled the
concrete one-call run contains no refinement restart. -/
theorem refinement_decision_amended_witness :
    agentNoRefinement.enable_simple_refinement = false ∧
      Event.refine ∉ (Agent.run agentNoRefinement envOneCallRound tasksOne 10).trace :=
  ⟨rfl, refinement_decision_amended.2.1 agentNoRefinement envOneCallRound tasksOne 10 rfl⟩

/-- C7 — confirmed.  In Bayesian mode the confidence, completeness,
uncertainty and advisory fields of validation and goal outcomes are
observability-only: two runs whose oracle environments are identical except in
those fields (the boolean `done`/`achieved` fields held fixed) produce equal
results — the same control trace, hence the same sequence of tasks executed
and the same control-flow path, the same final state and the same answer. -/
theorem confidence_observability_noninterference (A : Agent) (e1 e2 : Env)
    (tasks : List PyTask) (fuel : Nat) (_hb : A.bayesian_mode = true)
    (h : ObsEquiv e1 e2) : Agent.run A e1 tasks fuel = Agent.run A e2 tasks fuel := by
  simp only [Agent.run, finishRun, h.answer_eq, outerLoop_congr A e1 e2 h]

theorem envObs_equiv : ObsEquiv envObsA envObsB :=
  { tools_eq := rfl, ask_eq := rfl, opt_eq := rfl, exec_eq := rfl, fmt_eq := rfl
    isDone_eq := rfl, goalDet_eq := rfl, answer_eq := rfl
    validation_rel := fun _ => rfl
    goal_rel := fun _ => rfl }

/-- Witness for `confidence_observability_noninterference`: the two concrete
environments differ only in observability fields and give equal runs. -/
theorem confidence_observability_noninterference_witness :
    (agentBayes.bayesian_mode = true ∧ ObsEquiv envObsA envObsB) ∧
      Agent.run agentBayes envObsA tasksOne 10 = Agent.run agentBayes envObsB tasksOne 10 :=
  ⟨⟨rfl, envObs_equiv⟩,
   confidence_observability_noninterference agentBayes envObsA envObsB tasksOne 10
     rfl envObs_equiv⟩

end Medster
